import Mathlib

/-!
Verification of the poll-manager core (PollManager.cpp) against its
natural-language specification.

The development shallowly embeds the relevant source functions:

* the percentage calculator get_vote_percentage (source lines 316-411);
* the answer coordinator set_poll_answer / do_set_poll_answer /
  on_set_poll_answer (lines 526-667);
* the close coordinator stop_poll (lines 669-734);
* the refresh scheduler on_get_poll_results / get_polling_timeout
  (lines 736-782);
* the server reconciliation entry point on_get_poll (lines 816-944).

Machine integers: the source uses int32/int64 arithmetic, but every routine
modelled here either CHECK-asserts its operands non-negative and small
enough that no overflow can occur (get_vote_percentage) or performs only
comparisons and copies; we therefore model them with Int.  C++ integer
division and modulus truncate toward zero, which is Int.tdiv / Int.tmod.
-/

namespace PollCore

/-- int32 maximum, used by the defensive voter-count ceiling. -/
def i32max : Int := 2147483647

/-! ## Percentage calculator (source lines 316-411)

The source groups equal vote counts with a std::unordered_map and sorts the
groups with std::sort.  The iteration order of the hash map is unspecified
and std::sort is not stable, so when two groups tie on both gap and member
count their relative order is not determined by the code.  The embedding
therefore exposes the group order as an explicit argument of
gvpWithOrder; admissibleOrder characterises exactly the orders the
source can produce, and get_vote_percentage instantiates a canonical
admissible order (insertion sort of the groups). -/

/-- Floor percentage of one option: result[i] = voter_count * 100 / total. -/
def floorPct (T v : Int) : Int := Int.tdiv (v * 100) T

/-- gap[i] = (result[i] + 1) * total - voter_count * 100: the excess needed
to round up to the next percent. -/
def gapOf (T v : Int) : Int := (floorPct T v + 1) * T - v * 100

/-- The two skip conditions of the distribution loop: a group is kept only
if its gap does not exceed half the total, and halves at or above 50% with
an even total are rounded down (source lines 373-384). -/
def keepGroup (T v : Int) : Bool :=
  if gapOf T v > Int.tdiv T 2 then false
  else if Int.tmod T 2 = 0 ∧ gapOf T v = Int.tdiv T 2 ∧ floorPct T v ≥ 50 then false
  else true

/-- The eligible vote-count groups: one entry per distinct voter count that
passes the skip conditions, paired with its number of members (source lines
362-384).  The order of this list is canonical for the embedding; the
source order is unspecified (hash-map iteration). -/
def eligibleGroups (counts : List Int) (T : Int) : List (Int × Nat) :=
  (counts.dedup.filter (fun v => keepGroup T v)).map (fun v => (v, counts.count v))

/-- The comparator of the sort, as a non-strict order: a precedes b when
the strict source comparator does not order b before a (smaller gap first,
then larger member count first; source lines 385-391). -/
def grpLE (T : Int) (a b : Int × Nat) : Prop :=
  gapOf T a.1 < gapOf T b.1 ∨ (gapOf T a.1 = gapOf T b.1 ∧ b.2 ≤ a.2)

instance grpLEDec (T : Int) : DecidableRel (grpLE T) := fun a b => by
  unfold grpLE; infer_instance

instance grpLETotal (T : Int) : IsTotal (Int × Nat) (grpLE T) := by
  constructor
  intro a b
  unfold grpLE
  rcases lt_trichotomy (gapOf T a.1) (gapOf T b.1) with h | h | h
  · exact Or.inl (Or.inl h)
  · rcases le_total b.2 a.2 with h2 | h2
    · exact Or.inl (Or.inr ⟨h, h2⟩)
    · exact Or.inr (Or.inr ⟨h.symm, h2⟩)
  · exact Or.inr (Or.inl h)

instance grpLETrans (T : Int) : IsTrans (Int × Nat) (grpLE T) := by
  constructor
  intro a b c hab hbc
  unfold grpLE at *
  rcases hab with h1 | ⟨h1, h1n⟩ <;> rcases hbc with h2 | ⟨h2, h2n⟩
  · exact Or.inl (h1.trans h2)
  · exact Or.inl (h2 ▸ h1)
  · exact Or.inl (h1 ▸ h2)
  · exact Or.inr ⟨h1.trans h2, h2n.trans h1n⟩

/-- Sorting the groups with the source comparator (std::sort, lines
385-391), realised canonically by insertion sort. -/
def sortGroups (T : Int) (gs : List (Int × Nat)) : List (Int × Nat) :=
  List.insertionSort (grpLE T) gs

/-- The greedy distribution loop (source lines 394-409): walk the ordered
groups, apply a group when its member count fits into the remaining
percentage budget, stop when the budget is exhausted.  Returns the list of
vote-count values whose groups received the extra point. -/
def greedy (left : Int) : List (Int × Nat) → List Int
  | [] => []
  | (v, n) :: rest =>
    if (n : Int) ≤ left then
      if left - n = 0 then [v] else v :: greedy (left - n) rest
    else greedy left rest

/-- The defensive clamp of the total (source lines 323-329): an
inconsistent total larger than the sum of counts is lowered to the sum. -/
def clampTotal (counts : List Int) (t : Int) : Int :=
  if t > counts.sum then counts.sum else t

/-- get_vote_percentage with the group enumeration order made explicit.
Mirrors source lines 316-411; the per-position result of the source
depends only on the per-position voter count, which the embedding makes
direct by mapping a per-value function over the counts. -/
def gvpWithOrder (counts : List Int) (total0 : Int) (order : List (Int × Nat)) :
    List Int :=
  let T := clampTotal counts total0
  if T = 0 then counts.map (fun _ => 0)
  else if T ≠ counts.sum then
    counts.map (fun c => Int.tdiv (Int.tdiv (c * 200 + T) T) 2)
  else if (counts.map (floorPct T)).sum = 100 then counts.map (floorPct T)
  else
    let applied := greedy (100 - (counts.map (floorPct T)).sum) order
    counts.map (fun c => floorPct T c + if c ∈ applied then 1 else 0)

/-- The canonical group order used by the executable embedding. -/
def canonicalOrder (counts : List Int) (total0 : Int) : List (Int × Nat) :=
  sortGroups (clampTotal counts total0) (eligibleGroups counts (clampTotal counts total0))

/-- PollManager::get_vote_percentage (source lines 316-411). -/
def get_vote_percentage (counts : List Int) (total0 : Int) : List Int :=
  gvpWithOrder counts total0 (canonicalOrder counts total0)

/-- An order the source sort can produce: a permutation of the eligible
groups that is sorted with respect to the comparator (std::sort only
guarantees sortedness, not a particular order among tied elements). -/
def admissibleOrder (counts : List Int) (total0 : Int) (order : List (Int × Nat)) :
    Prop :=
  order.Perm (eligibleGroups counts (clampTotal counts total0)) ∧
  List.Sorted (grpLE (clampTotal counts total0)) order

instance admissibleOrderDec (counts : List Int) (total0 : Int)
    (order : List (Int × Nat)) : Decidable (admissibleOrder counts total0 order) := by
  unfold admissibleOrder
  exact instDecidableAnd

-- sanity examples from the specification
example : get_vote_percentage [10, 10, 5] 25 = [40, 40, 20] := by decide
example : get_vote_percentage [1, 1, 1] 3 = [33, 33, 33] := by decide
example : get_vote_percentage [1, 2, 4] 7 = [14, 29, 57] := by decide
example : get_vote_percentage [10] 5 = [200] := by decide
example : get_vote_percentage [] 7 = [] := by decide
example : get_vote_percentage [0, 0] 0 = [0, 0] := by decide

/-! ## Data model and manager state

Association lists stand in for the std::unordered_map containers of the
source (polls_, pending_answers_, the binlog).  The environment flags that
the source reads through globals (use_message_db, is_bot, is_online,
close_flag) are part of the state.  External interactions (promise
resolution, query cancellation, network sends, display notification,
database writes, timeout arming) are recorded as an effect trace. -/

/-- PollManager::PollOption. -/
structure PollOption where
  text : String
  data : String
  voter_count : Int
  is_chosen : Bool
deriving DecidableEq

/-- PollManager::Poll. -/
structure Poll where
  question : String
  options : List PollOption
  total_voter_count : Int
  is_closed : Bool
deriving DecidableEq

/-- PollManager::PendingAnswer; query_ref records whether a cancellable
in-flight request handle is held. -/
structure PendingAnswer where
  options : List String
  promises : List Nat
  generation : Nat
  logevent_id : Nat
  query_ref : Bool
deriving DecidableEq

/-- The default-constructed PendingAnswer that unordered_map operator[]
inserts for an absent key. -/
def emptyPendingAnswer : PendingAnswer :=
  { options := [], promises := [], generation := 0, logevent_id := 0, query_ref := false }

/-- A durable binlog entry payload (SetPollAnswerLogEvent / StopPollLogEvent). -/
inductive BinlogData
  | answerEvent (poll_id fmi : Int) (options : List String)
  | stopEvent (poll_id fmi : Int)
deriving DecidableEq

/-- Promise resolution outcome (td Status). -/
inductive Outcome
  | ok
  | error (code : Int) (msg : String)
deriving DecidableEq

/-- Externally visible actions, in program order.  Message locations are
abstracted to a single integer fmi. -/
inductive Effect
  | resolved (promise : Nat) (outcome : Outcome)
  | canceledQuery (poll_id : Int)
  | sentVote (poll_id fmi : Int) (options : List String) (generation : Nat)
  | sentStopPoll (poll_id fmi : Int)
  | notified (poll_id : Int)
  | savedPoll (poll_id : Int)
  | addTimeout (poll_id : Int) (t : Rat)
  | setTimeout (poll_id : Int) (t : Rat)
  | processedUpdates
deriving DecidableEq

/-- Association-list lookup (unordered_map find). -/
def alookup {κ α : Type} [BEq κ] (l : List (κ × α)) (k : κ) : Option α :=
  (l.find? (fun p => p.1 == k)).map Prod.snd

/-- Association-list write (unordered_map operator[] plus assignment):
replaces the entry in place, or appends a fresh one. -/
def aset {κ α : Type} [BEq κ] (l : List (κ × α)) (k : κ) (v : α) : List (κ × α) :=
  if (l.find? (fun p => p.1 == k)).isSome then
    l.map (fun p => if p.1 == k then (k, v) else p)
  else l ++ [(k, v)]

/-- Association-list erase. -/
def aerase {κ α : Type} [BEq κ] (l : List (κ × α)) (k : κ) : List (κ × α) :=
  l.filter (fun p => p.1 != k)

/-- The poll-manager state.  The registration set (poll_messages_) is not
tracked: display notification is recorded as an unconditional notified
effect, the fan-out to registered locations being display bookkeeping
outside the claims below. -/
structure PMState where
  polls : List (Int × Poll)
  pending_answers : List (Int × PendingAnswer)
  current_generation : Nat
  binlog : List (Nat × BinlogData)
  next_logevent_id : Nat
  use_message_db : Bool
  is_bot : Bool
  is_online : Bool
  close_flag : Bool
deriving DecidableEq

/-- PollManager::is_local_poll_id (source lines 219-221): the reserved
negative sub-range above int32 minimum. -/
def is_local_poll_id (poll_id : Int) : Bool :=
  decide (poll_id < 0) && decide (poll_id > -2147483648)

/-! ## Answer coordinator (source lines 526-667) -/

/-- Index translation of one option id: static_cast of an int32 to the
unsigned size_t wraps negative values to huge indices (source line 542). -/
def castIndex (option_id : Int) : Nat := (option_id % (2 : Int) ^ 64).toNat

/-- The index-to-identifier translation loop of set_poll_answer (source
lines 540-547): fails if any index is out of range, otherwise yields the
chosen option identifiers in order. -/
def optionsOf (poll : Poll) : List Int → Option (List String)
  | [] => some []
  | id :: rest =>
    if h : castIndex id < poll.options.length then
      (optionsOf poll rest).map (fun l => (poll.options.get ⟨castIndex id, h⟩).data :: l)
    else none

/-- The binlog step of do_set_poll_answer (source lines 582-600): on a
first submission a fresh entry is appended, a superseding submission
rewrites the previous entry in place and keeps its id.  Returns the
logevent id now attached to the pending answer and the updated state. -/
def dspaBinlog (s : PMState) (pa : PendingAnswer) (poll_id fmi : Int)
    (options : List String) (logevent_id : Nat) : Nat × PMState :=
  if logevent_id = 0 ∧ s.use_message_db then
    if pa.generation = 0 then
      (s.next_logevent_id,
        { s with
          binlog := s.binlog ++ [(s.next_logevent_id, BinlogData.answerEvent poll_id fmi options)],
          next_logevent_id := s.next_logevent_id + 1 })
    else
      (pa.logevent_id,
        { s with
          binlog := s.binlog.map (fun e =>
            if e.1 == pa.logevent_id then (e.1, BinlogData.answerEvent poll_id fmi options) else e) })
  else (logevent_id, s)

/-- PollManager::do_set_poll_answer (source lines 573-633). -/
def do_set_poll_answer (s : PMState) (poll_id fmi : Int) (options : List String)
    (logevent_id : Nat) (promise : Nat) : PMState × List Effect :=
  let pa := (alookup s.pending_answers poll_id).getD emptyPendingAnswer
  if pa.promises ≠ [] ∧ pa.options = options then
    -- identical options already in flight: the new promise piggybacks
    let pa1 := { pa with promises := pa.promises ++ [promise] }
    ({ s with pending_answers := aset s.pending_answers poll_id pa1 }, [])
  else
    let les := dspaBinlog s pa poll_id fmi options logevent_id
    let cancelEffs :=
      if pa.promises ≠ [] then
        Effect.canceledQuery poll_id :: pa.promises.map (fun q => Effect.resolved q Outcome.ok)
      else []
    let gen := les.2.current_generation + 1
    let pa2 : PendingAnswer :=
      { options := options, promises := [promise], generation := gen,
        logevent_id := les.1, query_ref := true }
    ({ les.2 with
        current_generation := gen,
        pending_answers := aset les.2.pending_answers poll_id pa2 },
      cancelEffs ++ [Effect.notified poll_id, Effect.sentVote poll_id fmi options gen])

/-- PollManager::set_poll_answer (source lines 526-550).  The source
CHECK-asserts that the poll exists; the impossible missing-poll case is
modelled as a no-op. -/
def set_poll_answer (s : PMState) (poll_id fmi : Int) (option_ids : List Int)
    (promise : Nat) : PMState × List Effect :=
  if option_ids.length > 1 then
    (s, [Effect.resolved promise (Outcome.error 400 "Cant choose more than 1 option")])
  else if is_local_poll_id poll_id then
    (s, [Effect.resolved promise (Outcome.error 5 "Poll cant be answered")])
  else
    match alookup s.polls poll_id with
    | none => (s, [])
    | some poll =>
      if poll.is_closed then
        (s, [Effect.resolved promise (Outcome.error 400 "Cant answer closed poll")])
      else
        match optionsOf poll option_ids with
        | none => (s, [Effect.resolved promise (Outcome.error 400 "Invalid option id specified")])
        | some options => do_set_poll_answer s poll_id fmi options 0 promise

/-- PollManager::on_set_poll_answer (source lines 635-667).  The source
CHECK-asserts that a found pending answer has waiters; the assertion is an
invariant, not a branch, and is not modelled. -/
def on_set_poll_answer (s : PMState) (poll_id : Int) (generation : Nat)
    (result : Outcome) : PMState × List Effect :=
  if s.close_flag ∧ result ≠ Outcome.ok then (s, [])
  else
    match alookup s.pending_answers poll_id with
    | none => (s, [])
    | some pa =>
      if pa.generation ≠ generation then (s, [])
      else
        let s1 := if pa.logevent_id ≠ 0 then { s with binlog := aerase s.binlog pa.logevent_id } else s
        ({ s1 with pending_answers := aerase s1.pending_answers poll_id },
          pa.promises.map (fun q => Effect.resolved q result))

/-- Decidable form of the stale-response condition of claim C3: no pending
record for the poll, or a generation that does not match the stored one. -/
def staleFor (s : PMState) (poll_id : Int) (generation : Nat) : Bool :=
  match alookup s.pending_answers poll_id with
  | none => true
  | some pa => pa.generation != generation

/-- Decidable form of the validation-rejection condition of claim C4. -/
def rejectsVote (s : PMState) (poll_id : Int) (option_ids : List Int) : Bool :=
  decide (option_ids.length > 1) || is_local_poll_id poll_id ||
    (match alookup s.polls poll_id with
     | none => false
     | some poll =>
       poll.is_closed || option_ids.any (fun id => poll.options.length ≤ castIndex id))

/-! ## Close coordinator (source lines 669-734) -/

/-- PollManager::stop_local_poll (source lines 724-734). -/
def stop_local_poll (s : PMState) (poll_id : Int) : PMState × List Effect :=
  match alookup s.polls poll_id with
  | none => (s, [])
  | some poll =>
    if poll.is_closed then (s, [])
    else
      ({ s with polls := aset s.polls poll_id { poll with is_closed := true } },
        [Effect.notified poll_id])

/-- PollManager::do_stop_poll (source lines 710-722).  The
erase-on-completion promise wrapper keeps the caller promise pending; only
the send is visible here. -/
def do_stop_poll (s : PMState) (poll_id fmi : Int) (logevent_id : Nat) :
    PMState × List Effect :=
  let s1 :=
    if logevent_id = 0 ∧ s.use_message_db then
      { s with
        binlog := s.binlog ++ [(s.next_logevent_id, BinlogData.stopEvent poll_id fmi)],
        next_logevent_id := s.next_logevent_id + 1 }
    else s
  (s1, [Effect.sentStopPoll poll_id fmi])

/-- PollManager::save_poll effects (source lines 260-270): persisted only
when message-history durability is enabled. -/
def savePollEffs (s : PMState) (poll_id : Int) : List Effect :=
  if s.use_message_db then [Effect.savedPoll poll_id] else []

/-- PollManager::stop_poll (source lines 669-690).  The missing-poll case
is CHECK-asserted impossible in the source and modelled as a no-op. -/
def stop_poll (s : PMState) (poll_id fmi : Int) (promise : Nat) :
    PMState × List Effect :=
  if is_local_poll_id poll_id then
    let r := stop_local_poll s poll_id
    (r.1, r.2 ++ [Effect.resolved promise Outcome.ok])
  else
    match alookup s.polls poll_id with
    | none => (s, [])
    | some poll =>
      if poll.is_closed then (s, [Effect.resolved promise Outcome.ok])
      else
        let s1 :=
          { s with
            current_generation := s.current_generation + 1,
            polls := aset s.polls poll_id { poll with is_closed := true } }
        let r := do_stop_poll s1 poll_id fmi 0
        (r.1, Effect.notified poll_id :: savePollEffs s poll_id ++ r.2)

/-! ## Refresh scheduler (source lines 736-782) -/

/-- PollManager::get_polling_timeout (source lines 736-739): the jitter
factor Random::fast(70, 100) is passed explicitly; double arithmetic is
modelled exactly over the rationals. -/
def get_polling_timeout (s : PMState) (r : Nat) : Rat :=
  (if s.is_online then 60 else 30 * 60) * (r : Rat) / 100

/-- get_poll_is_closed (source lines 508-512); the poll is CHECK-asserted
to exist. -/
def pollIsClosed (s : PMState) (poll_id : Int) : Bool :=
  match alookup s.polls poll_id with
  | none => false
  | some poll => poll.is_closed

/-- PollManager::on_get_poll_results (source lines 763-782); ok signals
whether the fetch succeeded, r is the jitter sample. -/
def on_get_poll_results (s : PMState) (poll_id : Int) (generation : Nat)
    (ok : Bool) (r : Nat) : PMState × List Effect :=
  if !ok then
    if !pollIsClosed s poll_id && !s.is_bot then
      (s, [Effect.addTimeout poll_id (get_polling_timeout s r)])
    else (s, [])
  else if generation ≠ s.current_generation then
    if !pollIsClosed s poll_id && !s.is_bot then
      (s, [Effect.setTimeout poll_id 0])
    else (s, [])
  else (s, [Effect.processedUpdates])

/-! ## Server reconciliation (source lines 806-944) -/

/-- telegram_api::poll metadata block: id, question, answers as (text,
data) pairs, closed flag. -/
structure ServerPollMeta where
  id : Int
  question : String
  answers : List (String × String)
  is_closed : Bool
deriving DecidableEq

/-- telegram_api::pollAnswerVoters. -/
structure PollResultEntry where
  option : String
  voters : Int
  chosen : Bool
deriving DecidableEq

/-- telegram_api::pollResults: min flag, optional total, per-option rows. -/
structure ServerPollResults where
  is_min : Bool
  total_voters : Option Int
  results : List PollResultEntry
deriving DecidableEq

/-- get_poll_options (source lines 806-814): fresh options from the wire
with zeroed tallies. -/
def mkServerOption (a : String × String) : PollOption :=
  { text := a.1, data := a.2, voter_count := 0, is_chosen := false }

/-- Per-index option sync of the metadata branch (source lines 854-865):
a text change is copied; an identifier change resets the tallies. -/
def syncOption (o : PollOption) (a : String × String) : PollOption × Bool :=
  let r1 := if o.text ≠ a.1 then ({ o with text := a.1 }, true) else (o, false)
  if r1.1.data ≠ a.2 then
    ({ r1.1 with data := a.2, voter_count := 0, is_chosen := false }, true)
  else r1

/-- The metadata branch of on_get_poll (source lines 845-872). -/
def syncMeta (poll : Poll) (meta : ServerPollMeta) : Poll × Bool :=
  let q := if poll.question ≠ meta.question then (meta.question, true) else (poll.question, false)
  let opts :=
    if poll.options.length ≠ meta.answers.length then
      (meta.answers.map mkServerOption, true)
    else
      let z := (poll.options.zip meta.answers).map (fun p => syncOption p.1 p.2)
      (z.map Prod.fst, z.any Prod.snd)
  let closedChanged := meta.is_closed ≠ poll.is_closed
  ({ poll with
      question := q.1, options := opts.1, is_closed := meta.is_closed },
    q.2 || opts.2 || closedChanged)

/-- The explicit-total branch of the results merge (source lines 876-884). -/
def applyTotal (poll : Poll) (res : ServerPollResults) : Poll × Bool :=
  match res.total_voters with
  | none => (poll, false)
  | some tv =>
    if tv ≠ poll.total_voter_count then
      ({ poll with total_voter_count := if tv < 0 then 0 else tv }, true)
    else (poll, false)

/-- The per-option body of the results loop (source lines 886-919),
including the defensive clamps; the clamps run only when the reported
count differs from the stored one.  Returns the updated option, the poll
total (possibly raised), and the changed flag. -/
def mergeOneOption (is_min : Bool) (nopts : Int) (res : PollResultEntry)
    (opt : PollOption) (total : Int) (changed : Bool) :
    PollOption × Int × Bool :=
  if opt.data ≠ res.option then (opt, total, changed)
  else
    let oc :=
      if !is_min ∧ res.chosen ≠ opt.is_chosen then
        ({ opt with is_chosen := res.chosen }, true)
      else (opt, changed)
    if res.voters ≠ oc.1.voter_count then
      let vc1 := if res.voters < 0 then 0 else res.voters
      let vc2 := if oc.1.is_chosen ∧ vc1 = 0 then 1 else vc1
      let total1 := if vc2 > total then vc2 else total
      let maxv := Int.tdiv i32max nopts - 2
      let vc3 := if vc2 > maxv then maxv else vc2
      ({ oc.1 with voter_count := vc3 }, total1, true)
    else (oc.1, total, oc.2)

/-- One result row applied to every option with a matching identifier
(source lines 885-921, inner loop). -/
def mergeResult (is_min : Bool) (nopts : Int) (res : PollResultEntry)
    (acc : List PollOption × Int × Bool) : List PollOption × Int × Bool :=
  acc.1.foldl
    (fun a opt =>
      let r := mergeOneOption is_min nopts res opt a.2.1 a.2.2
      (a.1 ++ [r.1], r.2.1, r.2.2))
    (([] : List PollOption), acc.2.1, acc.2.2)

/-- All result rows in order (source lines 885-921, outer loop). -/
def mergeResults (is_min : Bool) (nopts : Int) (results : List PollResultEntry)
    (opts : List PollOption) (total : Int) (changed : Bool) :
    List PollOption × Int × Bool :=
  results.foldl (fun acc res => mergeResult is_min nopts res acc) (opts, total, changed)

/-- The whole merge of one poll record (source lines 845-932): metadata
sync, explicit total, per-option results with clamps, and the final
total-versus-sum cap (which the source applies without setting the
changed flag). -/
def mergePoll (poll : Poll) (poll_server : Option ServerPollMeta)
    (res : ServerPollResults) : Poll × Bool :=
  let m1 :=
    match poll_server with
    | none => (poll, false)
    | some meta => syncMeta poll meta
  let t1 := applyTotal m1.1 res
  let nopts : Int := t1.1.options.length
  let l1 := mergeResults res.is_min nopts res.results t1.1.options t1.1.total_voter_count (m1.2 || t1.2)
  let total3 :=
    if res.results ≠ [] ∧ res.total_voters.isSome then
      let maxt := (l1.1.map PollOption.voter_count).sum
      if l1.2.1 > maxt ∧ maxt ≠ 0 then maxt else l1.2.1
    else l1.2.1
  ({ t1.1 with options := l1.1, total_voter_count := total3 }, l1.2.2)

/-- PollId validity.  The PollId class itself is outside the given source
file; a poll id is taken to be valid when it is nonzero (PollId() denotes
the invalid zero id). -/
def pollIdValid (poll_id : Int) : Bool := poll_id != 0

/-- PollManager::on_get_poll (source lines 816-944): validity checks,
load-or-create of the local record, merge, timeout rearm and
notify/persist effects.  Returns the final state, the effect trace and
the returned poll id (0 when the update is rejected). -/
def on_get_poll (s : PMState) (poll_id0 : Int) (poll_server : Option ServerPollMeta)
    (poll_results : ServerPollResults) (r : Nat) : PMState × List Effect × Int :=
  let poll_id :=
    if !pollIdValid poll_id0 then
      match poll_server with
      | some meta => meta.id
      | none => poll_id0
    else poll_id0
  if !pollIdValid poll_id || is_local_poll_id poll_id then (s, [], 0)
  else if (match poll_server with | some meta => meta.id != poll_id | none => false) then
    (s, [], 0)
  else
    let found := alookup s.polls poll_id
    if found.isNone ∧ poll_server.isNone then (s, [], 0)
    else
      let poll0 := found.getD
        { question := "", options := [], total_voter_count := 0, is_closed := false }
      let m := mergePoll poll0 poll_server poll_results
      let timeoutEffs :=
        if !s.is_bot && !m.1.is_closed then
          [Effect.setTimeout poll_id (get_polling_timeout s r)]
        else []
      let changeEffs :=
        if m.2 then Effect.notified poll_id :: savePollEffs s poll_id else []
      ({ s with polls := aset s.polls poll_id m.1 }, timeoutEffs ++ changeEffs, poll_id)

/-! ## Helper lemmas for the percentage calculator -/

theorem clampTotal_eq_sum {counts : List Int} {t : Int} (h : counts.sum ≤ t) :
    clampTotal counts t = counts.sum := by
  unfold clampTotal
  split <;> omega

theorem floorPct_eq_ediv {T v : Int} (hT : 0 < T) (hv : 0 ≤ v) :
    floorPct T v = v * 100 / T := by
  unfold floorPct
  exact Int.tdiv_eq_ediv (by positivity) hT.le

theorem floorPct_nonneg {T v : Int} (hT : 0 < T) (hv : 0 ≤ v) :
    0 ≤ floorPct T v := by
  rw [floorPct_eq_ediv hT hv]
  exact Int.ediv_nonneg (by positivity) hT.le

theorem floorPct_le_100 {T v : Int} (hT : 0 < T) (hv : 0 ≤ v) (hvT : v ≤ T) :
    floorPct T v ≤ 100 := by
  rw [floorPct_eq_ediv hT hv]
  calc v * 100 / T ≤ T * 100 / T :=
        Int.ediv_le_ediv hT (by nlinarith)
    _ = 100 := Int.mul_ediv_cancel_left 100 hT.ne'

theorem floorPct_le_99 {T v : Int} (hT : 0 < T) (hv : 0 ≤ v) (hvT : v < T) :
    floorPct T v ≤ 99 := by
  have h : floorPct T v < 100 := by
    rw [floorPct_eq_ediv hT hv, Int.ediv_lt_iff_lt_mul hT]
    nlinarith
  omega

theorem floorPct_self {T : Int} (hT : 0 < T) : floorPct T T = 100 := by
  rw [floorPct_eq_ediv hT hT.le]
  exact Int.mul_ediv_cancel_left 100 hT.ne'

theorem ediv_add_ediv_le {T : Int} (hT : 0 < T) (a b : Int) :
    a / T + b / T ≤ (a + b) / T := by
  rw [Int.le_ediv_iff_mul_le hT, add_mul]
  have h1 : a / T * T ≤ a := Int.ediv_mul_le a hT.ne'
  have h2 : b / T * T ≤ b := Int.ediv_mul_le b hT.ne'
  omega

theorem floors_sum_le {T : Int} (hT : 0 < T) :
    ∀ (l : List Int), (∀ v ∈ l, 0 ≤ v) →
      (l.map (floorPct T)).sum ≤ l.sum * 100 / T := by
  intro l
  induction l with
  | nil => intro _; simp
  | cons v l ih =>
    intro hnn
    have hv : 0 ≤ v := hnn v (by simp)
    have hrest := ih (fun x hx => hnn x (by simp [hx]))
    calc (List.map (floorPct T) (v :: l)).sum
        = floorPct T v + (l.map (floorPct T)).sum := by simp
      _ ≤ v * 100 / T + l.sum * 100 / T := by
          rw [floorPct_eq_ediv hT hv]; omega
      _ ≤ (v * 100 + l.sum * 100) / T := ediv_add_ediv_le hT _ _
      _ = (v :: l).sum * 100 / T := by rw [List.sum_cons, add_mul]

theorem psum_le_100 {counts : List Int} (hnn : ∀ v ∈ counts, 0 ≤ v)
    (hT : 0 < counts.sum) :
    (counts.map (floorPct counts.sum)).sum ≤ 100 := by
  have h := floors_sum_le hT counts hnn
  have h2 : counts.sum * 100 / counts.sum = 100 :=
    Int.mul_ediv_cancel_left 100 hT.ne'
  omega

theorem keepGroup_lt_total {T v : Int} (hT : 0 < T) (hv : 0 ≤ v) (hvT : v ≤ T)
    (hk : keepGroup T v = true) : v < T := by
  rcases lt_or_eq_of_le hvT with h | h
  · exact h
  · exfalso
    subst h
    have hgap : gapOf v v = v := by
      unfold gapOf
      rw [floorPct_self hT]
      ring
    have hhalf : Int.tdiv v 2 = v / 2 := Int.tdiv_eq_ediv hT.le (by norm_num)
    have hlt : v / 2 < v := by
      rw [Int.ediv_lt_iff_lt_mul (by norm_num : (0:Int) < 2)]
      omega
    unfold keepGroup at hk
    rw [if_pos (by rw [hgap, hhalf]; exact hlt)] at hk
    exact Bool.false_ne_true hk

/-! Greedy distribution lemmas. -/

theorem mem_greedy {left : Int} {order : List (Int × Nat)} {v : Int}
    (h : v ∈ greedy left order) : ∃ n, (v, n) ∈ order := by
  induction order generalizing left with
  | nil => simp [greedy] at h
  | cons g rest ih =>
    obtain ⟨gv, gn⟩ := g
    simp only [greedy] at h
    split at h
    · split at h
      · simp at h
        exact ⟨gn, by simp [h]⟩
      · rcases List.mem_cons.mp h with h | h
        · exact ⟨gn, by simp [h]⟩
        · obtain ⟨n, hn⟩ := ih h
          exact ⟨n, by simp [hn]⟩
    · obtain ⟨n, hn⟩ := ih h
      exact ⟨n, by simp [hn]⟩

theorem greedy_nodup {order : List (Int × Nat)}
    (h : (order.map Prod.fst).Nodup) : ∀ left, (greedy left order).Nodup := by
  induction order with
  | nil => intro left; simp [greedy]
  | cons g rest ih =>
    intro left
    obtain ⟨gv, gn⟩ := g
    simp only [List.map_cons, List.nodup_cons] at h
    simp only [greedy]
    split
    · split
      · simp
      · refine List.nodup_cons.mpr ⟨?_, ih h.2 _⟩
        intro hmem
        obtain ⟨n, hn⟩ := mem_greedy hmem
        exact h.1 (List.mem_map.mpr ⟨(gv, n), hn, rfl⟩)
    · exact ih h.2 _

theorem greedy_weight {w : Int → Int} :
    ∀ (order : List (Int × Nat)) (left : Int),
      (∀ p ∈ order, (p.2 : Int) = w p.1) → 0 ≤ left →
      ((greedy left order).map w).sum ≤ left := by
  intro order
  induction order with
  | nil => intro left _ hl; simpa [greedy]
  | cons g rest ih =>
    intro left hw hl
    obtain ⟨gv, gn⟩ := g
    have hg : (gn : Int) = w gv := hw (gv, gn) (by simp)
    simp only [greedy]
    split
    · split
      · simp only [List.map_cons, List.map_nil, List.sum_cons, List.sum_nil]
        omega
      · simp only [List.map_cons, List.sum_cons]
        have := ih (left - gn) (fun p hp => hw p (by simp [hp])) (by omega)
        omega
    · exact ih left (fun p hp => hw p (by simp [hp])) hl

/-! Indicator-sum lemmas. -/

theorem sum_indicator_single (v : Int) :
    ∀ (l : List Int),
      (l.map (fun c => if c = v then (1 : Int) else 0)).sum = l.count v := by
  intro l
  induction l with
  | nil => simp
  | cons a l ih =>
    simp only [List.map_cons, List.sum_cons, List.count_cons, ih]
    by_cases h : a = v <;> simp [h] <;> push_cast <;> ring

theorem sum_indicator_mem :
    ∀ (A : List Int), A.Nodup → ∀ (l : List Int),
      (l.map (fun c => if c ∈ A then (1 : Int) else 0)).sum =
        (A.map (fun v => (l.count v : Int))).sum := by
  intro A
  induction A with
  | nil =>
    intro _ l
    simp
  | cons v A ih =>
    intro hnd l
    have hvA : v ∉ A := (List.nodup_cons.mp hnd).1
    have hpoint : ∀ c ∈ l,
        (if c ∈ v :: A then (1 : Int) else 0) =
          (if c = v then (1 : Int) else 0) + (if c ∈ A then (1 : Int) else 0) := by
      intro c _
      by_cases hcv : c = v
      · subst hcv
        simp [hvA]
      · by_cases hcA : c ∈ A <;> simp [hcv, hcA]
    rw [List.map_congr_left hpoint, List.sum_map_add, sum_indicator_single,
      ih (List.nodup_cons.mp hnd).2, List.map_cons, List.sum_cons]

/-! Eligible-group lemmas. -/

theorem mem_eligibleGroups {counts : List Int} {T : Int} {p : Int × Nat}
    (h : p ∈ eligibleGroups counts T) :
    p.1 ∈ counts ∧ p.2 = counts.count p.1 ∧ keepGroup T p.1 = true := by
  unfold eligibleGroups at h
  obtain ⟨v, hv, hp⟩ := List.mem_map.mp h
  obtain ⟨hvd, hvk⟩ := List.mem_filter.mp hv
  obtain rfl := hp.symm
  exact ⟨List.mem_dedup.mp hvd, rfl, hvk⟩

theorem eligibleGroups_keys_nodup (counts : List Int) (T : Int) :
    ((eligibleGroups counts T).map Prod.fst).Nodup := by
  unfold eligibleGroups
  rw [List.map_map]
  have : (Prod.fst ∘ fun v => ((v : Int), counts.count v)) = id := rfl
  rw [this, List.map_id]
  exact (List.nodup_dedup counts).filter _

theorem gvpWithOrder_exact {counts : List Int} {total0 : Int} (order : List (Int × Nat))
    (hcl : clampTotal counts total0 = counts.sum) (hT0 : counts.sum ≠ 0) :
    gvpWithOrder counts total0 order =
      if (counts.map (floorPct counts.sum)).sum = 100 then counts.map (floorPct counts.sum)
      else
        counts.map (fun c =>
          floorPct counts.sum c +
            if c ∈ greedy (100 - (counts.map (floorPct counts.sum)).sum) order then 1 else 0) := by
  simp only [gvpWithOrder, hcl]
  rw [if_neg hT0, if_neg (by simp)]

theorem gvpWithOrder_length (counts : List Int) (total0 : Int) (order : List (Int × Nat)) :
    (gvpWithOrder counts total0 order).length = counts.length := by
  simp only [gvpWithOrder]
  split_ifs <;> simp

theorem gvpWithOrder_eq_map (counts : List Int) (total0 : Int) (order : List (Int × Nat)) :
    ∃ f, gvpWithOrder counts total0 order = counts.map f := by
  simp only [gvpWithOrder]
  split_ifs <;> exact ⟨_, rfl⟩

theorem map_getD_congr {l : List Int} (f : Int → Int) {i j : Nat}
    (hi : i < l.length) (hj : j < l.length) (h : l.getD i 0 = l.getD j 0) :
    (l.map f).getD i 0 = (l.map f).getD j 0 := by
  rw [List.getD_eq_getElem?_getD, List.getD_eq_getElem?_getD,
    List.getElem?_eq_getElem hi, List.getElem?_eq_getElem hj] at h
  rw [List.getD_eq_getElem?_getD, List.getD_eq_getElem?_getD, List.getElem?_map,
    List.getElem?_map, List.getElem?_eq_getElem hi, List.getElem?_eq_getElem hj]
  simp only [Option.getD_some] at h ⊢
  exact congrArg f h

theorem gvp_order_bounds (counts : List Int) (total0 : Int) (order : List (Int × Nat))
    (hnn : ∀ v ∈ counts, 0 ≤ v) (htot : counts.sum ≤ total0)
    (hperm : order.Perm (eligibleGroups counts (clampTotal counts total0))) :
    (∀ x ∈ gvpWithOrder counts total0 order, 0 ≤ x ∧ x ≤ 100) ∧
    (gvpWithOrder counts total0 order).sum ≤ 100 := by
  have hcl := clampTotal_eq_sum htot
  rw [hcl] at hperm
  by_cases hT0 : counts.sum = 0
  · constructor
    · intro x hx
      simp only [gvpWithOrder, hcl, hT0, if_pos] at hx
      obtain ⟨c, _, rfl⟩ := List.mem_map.mp hx
      exact ⟨le_refl 0, by norm_num⟩
    · have : gvpWithOrder counts total0 order = counts.map (fun _ => 0) := by
        simp [gvpWithOrder, hcl, hT0]
      rw [this]
      have : (counts.map (fun _ => (0 : Int))).sum = 0 :=
        List.sum_eq_zero (by intro x hx; obtain ⟨c, _, rfl⟩ := List.mem_map.mp hx; rfl)
      omega
  · have hTpos : 0 < counts.sum := lt_of_le_of_ne (List.sum_nonneg hnn) (Ne.symm hT0)
    have hvT : ∀ v ∈ counts, v ≤ counts.sum := List.single_le_sum hnn
    rw [gvpWithOrder_exact order hcl hT0]
    have hpsum : (counts.map (floorPct counts.sum)).sum ≤ 100 := psum_le_100 hnn hTpos
    by_cases hps : (counts.map (floorPct counts.sum)).sum = 100
    · rw [if_pos hps]
      constructor
      · intro x hx
        obtain ⟨c, hc, rfl⟩ := List.mem_map.mp hx
        exact ⟨floorPct_nonneg hTpos (hnn c hc),
          floorPct_le_100 hTpos (hnn c hc) (hvT c hc)⟩
      · omega
    · rw [if_neg hps]
      -- facts about the applied set
      have hkeysnd : (order.map Prod.fst).Nodup :=
        ((hperm.map Prod.fst).nodup_iff).mpr (eligibleGroups_keys_nodup counts counts.sum)
      have hmemel : ∀ p ∈ order, p ∈ eligibleGroups counts counts.sum :=
        fun p hp => hperm.mem_iff.mp hp
      have happlied : ∀ v ∈ greedy (100 - (counts.map (floorPct counts.sum)).sum) order,
          keepGroup counts.sum v = true := by
        intro v hv
        obtain ⟨n, hn⟩ := mem_greedy hv
        exact (mem_eligibleGroups (hmemel _ hn)).2.2
      constructor
      · intro x hx
        obtain ⟨c, hc, rfl⟩ := List.mem_map.mp hx
        have h0 := floorPct_nonneg hTpos (hnn c hc)
        by_cases hcA : c ∈ greedy (100 - (counts.map (floorPct counts.sum)).sum) order
        · have hlt : c < counts.sum :=
            keepGroup_lt_total hTpos (hnn c hc) (hvT c hc) (happlied c hcA)
          have h99 := floorPct_le_99 hTpos (hnn c hc) hlt
          rw [if_pos hcA]
          omega
        · rw [if_neg hcA]
          have := floorPct_le_100 hTpos (hnn c hc) (hvT c hc)
          omega
      · rw [List.sum_map_add]
        have hnodupA : (greedy (100 - (counts.map (floorPct counts.sum)).sum) order).Nodup :=
          greedy_nodup hkeysnd _
        rw [sum_indicator_mem _ hnodupA counts]
        have hw := greedy_weight (w := fun v => (counts.count v : Int)) order
          (100 - (counts.map (floorPct counts.sum)).sum)
          (fun p hp => by
            have := (mem_eligibleGroups (hmemel p hp)).2.1
            exact_mod_cast congrArg Int.ofNat this)
          (by omega)
        omega

/-- Unfolding of get_vote_percentage to its order-explicit core. -/
theorem get_vote_percentage_def (counts : List Int) (total0 : Int) :
    get_vote_percentage counts total0 =
      gvpWithOrder counts total0 (canonicalOrder counts total0) := rfl

theorem canonicalOrder_perm (counts : List Int) (total0 : Int) :
    (canonicalOrder counts total0).Perm
      (eligibleGroups counts (clampTotal counts total0)) :=
  List.perm_insertionSort _ _

/-- Claim C1: for every sequence of non-negative vote counts and every
total at least their sum, get_vote_percentage returns a same-length
sequence of values in [0,100] whose sum is at most 100, and positions with
equal raw counts receive equal percentages. -/
theorem claim_C1 (counts : List Int) (total0 : Int)
    (hnn : ∀ v ∈ counts, 0 ≤ v) (htot : counts.sum ≤ total0) :
    (get_vote_percentage counts total0).length = counts.length ∧
    (∀ x ∈ get_vote_percentage counts total0, 0 ≤ x ∧ x ≤ 100) ∧
    (get_vote_percentage counts total0).sum ≤ 100 ∧
    (∀ i j : Nat, i < counts.length → j < counts.length →
      counts.getD i 0 = counts.getD j 0 →
      (get_vote_percentage counts total0).getD i 0 =
        (get_vote_percentage counts total0).getD j 0) := by
  have hb := gvp_order_bounds counts total0 (canonicalOrder counts total0) hnn htot
    (canonicalOrder_perm counts total0)
  rw [get_vote_percentage_def]
  refine ⟨gvpWithOrder_length counts total0 _, hb.1, hb.2, ?_⟩
  obtain ⟨f, hf⟩ := gvpWithOrder_eq_map counts total0 (canonicalOrder counts total0)
  intro i j hi hj h
  rw [hf]
  exact map_getD_congr f hi hj h

/-- Witness for C1 at the specification example [1, 1, 1] with total 3. -/
theorem claim_C1_witness :
    (∀ v ∈ ([1, 1, 1] : List Int), 0 ≤ v) ∧ ([1, 1, 1] : List Int).sum ≤ 3 ∧
    ((get_vote_percentage [1, 1, 1] 3).length = ([1, 1, 1] : List Int).length ∧
     (∀ x ∈ get_vote_percentage [1, 1, 1] 3, 0 ≤ x ∧ x ≤ 100) ∧
     (get_vote_percentage [1, 1, 1] 3).sum ≤ 100 ∧
     (∀ i j : Nat, i < ([1, 1, 1] : List Int).length → j < ([1, 1, 1] : List Int).length →
       ([1, 1, 1] : List Int).getD i 0 = ([1, 1, 1] : List Int).getD j 0 →
       (get_vote_percentage [1, 1, 1] 3).getD i 0 =
         (get_vote_percentage [1, 1, 1] 3).getD j 0)) :=
  ⟨by decide, by decide, claim_C1 [1, 1, 1] 3 (by decide) (by decide)⟩

theorem grpLE_refl (T : Int) (a : Int × Nat) : grpLE T a a :=
  Or.inr ⟨rfl, le_refl a.2⟩

/-- Two sorted lists that are permutations of each other and whose
elements the order does not tie are equal (antisymmetry is only required
on the listed elements). -/
theorem sorted_perm_eq {α : Type} {r : α → α → Prop} (hrefl : ∀ a, r a a) :
    ∀ {l1 l2 : List α}, l1.Perm l2 → List.Sorted r l1 → List.Sorted r l2 →
      (∀ a ∈ l1, ∀ b ∈ l1, r a b → r b a → a = b) → l1 = l2 := by
  intro l1
  induction l1 with
  | nil =>
    intro l2 hp _ _ _
    exact (hp.symm.eq_nil).symm
  | cons a t1 ih =>
    intro l2 hp hs1 hs2 hanti
    cases l2 with
    | nil => exact absurd hp.eq_nil (by simp)
    | cons b t2 =>
      have hb1 : b ∈ a :: t1 := hp.mem_iff.mpr (by simp)
      have ha2 : a ∈ b :: t2 := hp.mem_iff.mp (by simp)
      have hab : r a b := by
        rcases List.mem_cons.mp hb1 with h | h
        · rw [h]; exact hrefl a
        · exact List.rel_of_sorted_cons hs1 b h
      have hba : r b a := by
        rcases List.mem_cons.mp ha2 with h | h
        · rw [h]; exact hrefl b
        · exact List.rel_of_sorted_cons hs2 a h
      have heads : a = b := hanti a (by simp) b hb1 hab hba
      subst heads
      have hp2 : t1.Perm t2 := hp.cons_inv
      have htail := ih hp2 hs1.of_cons hs2.of_cons
        (fun x hx y hy hxy hyx => hanti x (by simp [hx]) y (by simp [hy]) hxy hyx)
      rw [htail]

/-- Claim C5, amended: the output of the calculator is determined by the
input together with the group enumeration order; whenever no two eligible
groups tie on both gap and member count, every admissible order (hence
every run of the source) produces the same output. -/
theorem claim_C5 (counts : List Int) (total0 : Int) (o1 o2 : List (Int × Nat))
    (h1 : admissibleOrder counts total0 o1) (h2 : admissibleOrder counts total0 o2)
    (hkeys : ∀ a ∈ eligibleGroups counts (clampTotal counts total0),
        ∀ b ∈ eligibleGroups counts (clampTotal counts total0),
        gapOf (clampTotal counts total0) a.1 = gapOf (clampTotal counts total0) b.1 →
        a.2 = b.2 → a = b) :
    gvpWithOrder counts total0 o1 = gvpWithOrder counts total0 o2 := by
  have heq : o1 = o2 := by
    refine sorted_perm_eq (grpLE_refl _) (h1.1.trans h2.1.symm) h1.2 h2.2 ?_
    intro a ha b hb hab hba
    have ha2 := h1.1.mem_iff.mp ha
    have hb2 := h1.1.mem_iff.mp hb
    have hgap : gapOf (clampTotal counts total0) a.1 = gapOf (clampTotal counts total0) b.1 := by
      rcases hab with h | ⟨h, _⟩
      · rcases hba with h2 | ⟨h2, _⟩
        · exact absurd h2 (lt_asymm h)
        · exact h2.symm
      · exact h
    have hcnt : a.2 = b.2 := by
      rcases hab with h | ⟨_, hle1⟩
      · rcases hba with h2 | ⟨h2, hle2⟩
        · exact absurd h (lt_asymm h2)
        · exact absurd h (by rw [h2]; exact lt_irrefl _)
      · rcases hba with h2 | ⟨_, hle2⟩
        · exact absurd h2 (by rw [hgap]; exact lt_irrefl _)
        · exact le_antisymm hle2 hle1
    exact hkeys a ha2 b hb2 hgap hcnt
  rw [heq]

/-- Counterexample for C5 as stated: on counts [1, 3, 196] with total 200
the groups of the values 1 and 3 tie on both gap and member count, the
sort may order them either way, and the two admissible orders give
different outputs — the output of the source is not a function of the
input alone. -/
theorem claim_C5_counterexample :
    admissibleOrder [1, 3, 196] 200 [(1, 1), (3, 1)] ∧
    admissibleOrder [1, 3, 196] 200 [(3, 1), (1, 1)] ∧
    gvpWithOrder [1, 3, 196] 200 [(1, 1), (3, 1)] ≠
      gvpWithOrder [1, 3, 196] 200 [(3, 1), (1, 1)] := by
  refine ⟨by decide, by decide, by decide⟩

/-- Witness for C5 at counts [1, 2, 4] with total 7, whose single eligible
group leaves no ties. -/
theorem claim_C5_witness :
    admissibleOrder [1, 2, 4] 7 [(2, 1)] ∧
    (∀ a ∈ eligibleGroups [1, 2, 4] (clampTotal [1, 2, 4] 7),
      ∀ b ∈ eligibleGroups [1, 2, 4] (clampTotal [1, 2, 4] 7),
      gapOf (clampTotal [1, 2, 4] 7) a.1 = gapOf (clampTotal [1, 2, 4] 7) b.1 →
      a.2 = b.2 → a = b) ∧
    gvpWithOrder [1, 2, 4] 7 [(2, 1)] = gvpWithOrder [1, 2, 4] 7 [(2, 1)] :=
  ⟨by decide, by decide,
    claim_C5 [1, 2, 4] 7 [(2, 1)] [(2, 1)] (by decide) (by decide) (by decide)⟩

/-- Counterexample for C6 as stated: with counts [10] and total 5 the
fallback branch (total smaller than the sum of counts) returns 200, which
is outside [0, 100] and makes the sum exceed 100. -/
theorem claim_C6_counterexample :
    get_vote_percentage [10] 5 = [200] ∧
    ¬(∀ x ∈ get_vote_percentage [10] 5, 0 ≤ x ∧ x ≤ 100) := by
  refine ⟨by decide, by decide⟩

/-- Claim C6, amended: the output always has the same length as the
input; the range bound [0, 100] and the sum bound 100 hold whenever the
total is at least the sum of the counts, but not in the fallback branch
taken when the total is smaller. -/
theorem claim_C6 (counts : List Int) (total0 : Int) :
    (get_vote_percentage counts total0).length = counts.length ∧
    ((∀ v ∈ counts, 0 ≤ v) → counts.sum ≤ total0 →
      (∀ x ∈ get_vote_percentage counts total0, 0 ≤ x ∧ x ≤ 100) ∧
      (get_vote_percentage counts total0).sum ≤ 100) := by
  rw [get_vote_percentage_def]
  refine ⟨gvpWithOrder_length counts total0 _, fun hnn htot => ?_⟩
  exact gvp_order_bounds counts total0 (canonicalOrder counts total0) hnn htot
    (canonicalOrder_perm counts total0)

/-- Witness for C6 at counts [3] with total 10. -/
theorem claim_C6_witness :
    (get_vote_percentage [3] 10).length = ([3] : List Int).length ∧
    (∀ v ∈ ([3] : List Int), 0 ≤ v) ∧ ([3] : List Int).sum ≤ 10 ∧
    ((∀ x ∈ get_vote_percentage [3] 10, 0 ≤ x ∧ x ≤ 100) ∧
      (get_vote_percentage [3] 10).sum ≤ 100) :=
  ⟨(claim_C6 [3] 10).1, by decide, by decide, (claim_C6 [3] 10).2 (by decide) (by decide)⟩

/-! ## Claims about the answer and close coordinators -/

/-- Claim C3: a vote-submission response whose generation tag does not
match the stored pending record (or that finds no pending record at all)
is dropped by on_set_poll_answer without any side effect: the state is
returned unchanged and no promise is resolved. -/
theorem claim_C3 (s : PMState) (poll_id : Int) (generation : Nat) (result : Outcome)
    (h : staleFor s poll_id generation = true) :
    on_set_poll_answer s poll_id generation result = (s, []) := by
  unfold on_set_poll_answer
  unfold staleFor at h
  cases hl : alookup s.pending_answers poll_id with
  | none => simp [hl]
  | some pa =>
    rw [hl] at h
    have hne : pa.generation ≠ generation := by simpa using h
    simp [hl, hne]

/-- Witness for C3: a pending record at generation 5 ignores a response
tagged with generation 3. -/
theorem claim_C3_witness :
    staleFor
      { polls := [],
        pending_answers := [(7, { options := ["a"], promises := [1], generation := 5, logevent_id := 0, query_ref := true })],
        current_generation := 5, binlog := [], next_logevent_id := 1,
        use_message_db := false, is_bot := false, is_online := true,
        close_flag := false } 7 3 = true ∧
    on_set_poll_answer
      { polls := [],
        pending_answers := [(7, { options := ["a"], promises := [1], generation := 5, logevent_id := 0, query_ref := true })],
        current_generation := 5, binlog := [], next_logevent_id := 1,
        use_message_db := false, is_bot := false, is_online := true,
        close_flag := false } 7 3 Outcome.ok =
      (({ polls := [],
          pending_answers := [(7, { options := ["a"], promises := [1], generation := 5, logevent_id := 0, query_ref := true })],
          current_generation := 5, binlog := [], next_logevent_id := 1,
          use_message_db := false, is_bot := false, is_online := true,
          close_flag := false } : PMState), []) :=
  ⟨by decide, claim_C3 _ 7 3 Outcome.ok (by decide)⟩

/-- Claim C7: stop_poll on a server-confirmed poll whose closed flag is
already set resolves the promise with success and does nothing else: no
state change, no network send, no log write, no generation bump. -/
theorem claim_C7 (s : PMState) (poll_id fmi : Int) (promise : Nat) (poll : Poll)
    (hlocal : is_local_poll_id poll_id = false)
    (hpoll : alookup s.polls poll_id = some poll)
    (hclosed : poll.is_closed = true) :
    stop_poll s poll_id fmi promise = (s, [Effect.resolved promise Outcome.ok]) := by
  unfold stop_poll
  simp [hlocal, hpoll, hclosed]

/-- Witness for C7 on a concrete closed server poll. -/
theorem claim_C7_witness :
    is_local_poll_id 9 = false ∧
    alookup
      ({ polls := [(9, { question := "q", options := [], total_voter_count := 0, is_closed := true })],
         pending_answers := [], current_generation := 4, binlog := [],
         next_logevent_id := 1, use_message_db := true, is_bot := false,
         is_online := true, close_flag := false } : PMState).polls 9 =
      some { question := "q", options := [], total_voter_count := 0, is_closed := true } ∧
    stop_poll
      { polls := [(9, { question := "q", options := [], total_voter_count := 0, is_closed := true })],
        pending_answers := [], current_generation := 4, binlog := [],
        next_logevent_id := 1, use_message_db := true, is_bot := false,
        is_online := true, close_flag := false } 9 100 55 =
      (({ polls := [(9, { question := "q", options := [], total_voter_count := 0, is_closed := true })],
          pending_answers := [], current_generation := 4, binlog := [],
          next_logevent_id := 1, use_message_db := true, is_bot := false,
          is_online := true, close_flag := false } : PMState),
        [Effect.resolved 55 Outcome.ok]) :=
  ⟨by decide, by decide,
    claim_C7 _ 9 100 55
      { question := "q", options := [], total_voter_count := 0, is_closed := true }
      (by decide) (by decide) (by decide)⟩

/-- Claim C9: for a known poll and a non-automation account, a failed
result fetch rearms the refresh timeout with a fresh polling interval, a
successful fetch with a stale generation rearms immediately with interval
zero, and a closed poll is rearmed in neither case. -/
theorem claim_C9 (s : PMState) (poll_id : Int) (generation : Nat) (r : Nat) (poll : Poll)
    (hpoll : alookup s.polls poll_id = some poll) (hbot : s.is_bot = false) :
    (poll.is_closed = false →
      on_get_poll_results s poll_id generation false r =
        (s, [Effect.addTimeout poll_id (get_polling_timeout s r)]) ∧
      (generation ≠ s.current_generation →
        on_get_poll_results s poll_id generation true r =
          (s, [Effect.setTimeout poll_id 0]))) ∧
    (poll.is_closed = true →
      on_get_poll_results s poll_id generation false r = (s, []) ∧
      (generation ≠ s.current_generation →
        on_get_poll_results s poll_id generation true r = (s, []))) := by
  have hc : pollIsClosed s poll_id = poll.is_closed := by
    unfold pollIsClosed
    rw [hpoll]
  constructor
  · intro hopen
    refine ⟨by unfold on_get_poll_results; simp [hc, hopen, hbot], fun hgen => ?_⟩
    unfold on_get_poll_results
    simp [hc, hopen, hbot, hgen]
  · intro hclosed
    refine ⟨by unfold on_get_poll_results; simp [hc, hclosed], fun hgen => ?_⟩
    unfold on_get_poll_results
    simp [hc, hclosed, hgen]

/-- Witness for C9 on a concrete open poll with a stale generation. -/
theorem claim_C9_witness :
    alookup
      ({ polls := [(4, { question := "q", options := [], total_voter_count := 0, is_closed := false })],
         pending_answers := [], current_generation := 6, binlog := [],
         next_logevent_id := 1, use_message_db := false, is_bot := false,
         is_online := true, close_flag := false } : PMState).polls 4 =
      some { question := "q", options := [], total_voter_count := 0, is_closed := false } ∧
    ({ polls := [(4, { question := "q", options := [], total_voter_count := 0, is_closed := false })],
       pending_answers := [], current_generation := 6, binlog := [],
       next_logevent_id := 1, use_message_db := false, is_bot := false,
       is_online := true, close_flag := false } : PMState).is_bot = false ∧
    on_get_poll_results
      { polls := [(4, { question := "q", options := [], total_voter_count := 0, is_closed := false })],
        pending_answers := [], current_generation := 6, binlog := [],
        next_logevent_id := 1, use_message_db := false, is_bot := false,
        is_online := true, close_flag := false } 4 5 true 80 =
      (({ polls := [(4, { question := "q", options := [], total_voter_count := 0, is_closed := false })],
          pending_answers := [], current_generation := 6, binlog := [],
          next_logevent_id := 1, use_message_db := false, is_bot := false,
          is_online := true, close_flag := false } : PMState), [Effect.setTimeout 4 0]) :=
  ⟨by decide, by decide,
    ((claim_C9 _ 4 5 80
        { question := "q", options := [], total_voter_count := 0, is_closed := false }
        (by decide) (by decide)).1 (by decide)).2 (by decide)⟩

/-! ## Association-list lemmas -/

theorem alookup_cons_self {α : Type} {p : Int × α} {l : List (Int × α)} {k : Int}
    (h : p.1 = k) : alookup (p :: l) k = some p.2 := by
  unfold alookup
  rw [List.find?_cons_of_pos _ (by simp [h])]
  rfl

theorem alookup_cons_ne {α : Type} {p : Int × α} {l : List (Int × α)} {k : Int}
    (h : p.1 ≠ k) : alookup (p :: l) k = alookup l k := by
  unfold alookup
  rw [List.find?_cons_of_neg _ (by simp [h])]

theorem alookup_aset {α : Type} (l : List (Int × α)) (k : Int) (v : α) :
    alookup (aset l k v) k = some v := by
  induction l with
  | nil => simp [aset, alookup]
  | cons p l ih =>
    by_cases hp : p.1 = k
    · have hfind : ((p :: l).find? (fun q => q.1 == k)).isSome = true := by
        rw [List.find?_cons_of_pos _ (by simp [hp])]
        rfl
      unfold aset
      rw [if_pos hfind, List.map_cons, if_pos (by simp [hp] : (p.1 == k) = true)]
      exact alookup_cons_self rfl
    · have hfe : (p.1 == k) = false := by simp [hp]
      unfold aset
      rw [List.find?_cons_of_neg _ (by simp [hp])]
      by_cases hl : (List.find? (fun q => q.1 == k) l).isSome = true
      · rw [if_pos hl, List.map_cons, if_neg (by simp [hp]), alookup_cons_ne hp]
        have h2 := ih
        unfold aset at h2
        rw [if_pos hl] at h2
        exact h2
      · rw [if_neg hl, List.cons_append, alookup_cons_ne hp]
        have h2 := ih
        unfold aset at h2
        rw [if_neg hl] at h2
        exact h2

theorem countP_aset {α : Type} (l : List (Int × α)) (k : Int) (v : α)
    (hnd : (l.map Prod.fst).Nodup) :
    (aset l k v).countP (fun p => p.1 == k) = 1 := by
  induction l with
  | nil => simp [aset]
  | cons p l ih =>
    simp only [List.map_cons, List.nodup_cons] at hnd
    obtain ⟨hpk, hnd2⟩ := hnd
    by_cases hp : p.1 = k
    · have hknotin : ∀ q ∈ l, (q.1 == k) = false := by
        intro q hq
        have hqk : q.1 ≠ k := by
          intro he
          exact hpk (List.mem_map.mpr ⟨q, hq, by rw [he, hp]⟩)
        simp [hqk]
      have hfind : ((p :: l).find? (fun q => q.1 == k)).isSome = true := by
        rw [List.find?_cons_of_pos _ (by simp [hp])]
        rfl
      unfold aset
      rw [if_pos hfind, List.map_cons, if_pos (by simp [hp] : (p.1 == k) = true)]
      have hmapid : List.map (fun q => if q.1 == k then (k, v) else q) l = l := by
        calc List.map (fun q => if q.1 == k then (k, v) else q) l
            = List.map id l := List.map_congr_left (fun q hq => by simp [hknotin q hq])
          _ = l := List.map_id l
      rw [hmapid, List.countP_cons]
      have hz : l.countP (fun q => q.1 == k) = 0 :=
        List.countP_eq_zero.mpr (fun q hq => by simp [hknotin q hq])
      simp [hz]
    · by_cases hl : (List.find? (fun q => q.1 == k) l).isSome = true
      · have hfind : ((p :: l).find? (fun q => q.1 == k)).isSome = true := by
          rw [List.find?_cons_of_neg _ (by simp [hp])]
          exact hl
        unfold aset
        have h2 := ih hnd2
        unfold aset at h2
        rw [if_pos hl] at h2
        rw [if_pos hfind, List.map_cons, if_neg (by simp [hp]), List.countP_cons, h2]
        simp [hp]
      · have hfind : ¬((p :: l).find? (fun q => q.1 == k)).isSome = true := by
          rw [List.find?_cons_of_neg _ (by simp [hp])]
          exact hl
        unfold aset
        have h2 := ih hnd2
        unfold aset at h2
        rw [if_neg hl] at h2
        rw [if_neg hfind, List.cons_append, List.countP_cons, h2]
        simp [hp]

theorem dspaBinlog_pending (s : PMState) (pa : PendingAnswer) (pid fmi : Int)
    (options : List String) (le : Nat) :
    (dspaBinlog s pa pid fmi options le).2.pending_answers = s.pending_answers := by
  unfold dspaBinlog
  split_ifs <;> rfl

theorem dspaBinlog_gen (s : PMState) (pa : PendingAnswer) (pid fmi : Int)
    (options : List String) (le : Nat) :
    (dspaBinlog s pa pid fmi options le).2.current_generation = s.current_generation := by
  unfold dspaBinlog
  split_ifs <;> rfl

/-- Reduction of do_set_poll_answer in the superseding (non-piggyback)
case. -/
theorem do_set_poll_answer_super (s : PMState) (pa : PendingAnswer)
    (pid fmi : Int) (options : List String) (le promise : Nat)
    (hpa : alookup s.pending_answers pid = some pa)
    (hpig : ¬(pa.promises ≠ [] ∧ pa.options = options)) :
    do_set_poll_answer s pid fmi options le promise =
      ({ (dspaBinlog s pa pid fmi options le).2 with
          current_generation := (dspaBinlog s pa pid fmi options le).2.current_generation + 1,
          pending_answers := aset (dspaBinlog s pa pid fmi options le).2.pending_answers pid
            { options := options, promises := [promise],
              generation := (dspaBinlog s pa pid fmi options le).2.current_generation + 1,
              logevent_id := (dspaBinlog s pa pid fmi options le).1, query_ref := true } },
        (if pa.promises ≠ [] then
            Effect.canceledQuery pid :: pa.promises.map (fun q => Effect.resolved q Outcome.ok)
          else []) ++
          [Effect.notified pid,
            Effect.sentVote pid fmi options
              ((dspaBinlog s pa pid fmi options le).2.current_generation + 1)]) := by
  simp only [do_set_poll_answer, hpa, Option.getD_some]
  rw [if_neg hpig]

/-- Claim C2: when a submission is in flight with some chosen options and
a second submission with different options arrives for the same poll,
every waiter of the first submission is resolved with success (never an
error), and afterwards exactly one pending record exists for the poll,
carrying a strictly larger generation. -/
theorem claim_C2 (s : PMState) (poll_id fmi : Int) (options : List String)
    (promise : Nat) (pa : PendingAnswer)
    (hpa : alookup s.pending_answers poll_id = some pa)
    (hinflight : pa.promises ≠ [])
    (hdiff : options ≠ pa.options)
    (hgen : pa.generation ≤ s.current_generation)
    (hnd : (s.pending_answers.map Prod.fst).Nodup) :
    (∀ q ∈ pa.promises,
      Effect.resolved q Outcome.ok ∈ (do_set_poll_answer s poll_id fmi options 0 promise).2) ∧
    (∀ q c m,
      Effect.resolved q (Outcome.error c m) ∉ (do_set_poll_answer s poll_id fmi options 0 promise).2) ∧
    (do_set_poll_answer s poll_id fmi options 0 promise).1.pending_answers.countP
        (fun e => e.1 == poll_id) = 1 ∧
    (∃ pa2,
      alookup (do_set_poll_answer s poll_id fmi options 0 promise).1.pending_answers poll_id =
        some pa2 ∧ pa.generation < pa2.generation) := by
  have hpig : ¬(pa.promises ≠ [] ∧ pa.options = options) := by
    rintro ⟨_, h⟩
    exact hdiff h.symm
  rw [do_set_poll_answer_super s pa poll_id fmi options 0 promise hpa hpig]
  rw [if_pos hinflight]
  refine ⟨?_, ?_, ?_, ?_⟩
  · intro q hq
    simp only [List.mem_append, List.mem_cons, List.mem_map]
    exact Or.inl (Or.inr ⟨q, hq, rfl⟩)
  · intro q c m
    simp only [List.mem_append, List.mem_cons, List.mem_map]
    rintro (h | h)
    · rcases h with h | ⟨q2, _, h⟩
      · exact Effect.noConfusion h
      · injection h with h1 h2
        exact Outcome.noConfusion h2
    · rcases h with h | h
      · exact Effect.noConfusion h
      · rcases h with h | h
        · exact Effect.noConfusion h
        · simp at h
  · simp only [dspaBinlog_pending]
    exact countP_aset s.pending_answers poll_id _ hnd
  · refine ⟨_, by simp only [dspaBinlog_pending]; exact alookup_aset s.pending_answers poll_id _, ?_⟩
    simp only [dspaBinlog_gen]
    omega

/-- Witness for C2: a pending vote for option x at generation 2 is
superseded by a vote for option y. -/
theorem claim_C2_witness :
    alookup
      ({ polls := [],
         pending_answers := [(3, { options := ["x"], promises := [11], generation := 2, logevent_id := 0, query_ref := true })],
         current_generation := 2, binlog := [], next_logevent_id := 1,
         use_message_db := false, is_bot := false, is_online := true,
         close_flag := false } : PMState).pending_answers 3 =
      some { options := ["x"], promises := [11], generation := 2, logevent_id := 0, query_ref := true } ∧
    (∀ q ∈ [11],
      Effect.resolved q Outcome.ok ∈
        (do_set_poll_answer
          { polls := [],
            pending_answers := [(3, { options := ["x"], promises := [11], generation := 2, logevent_id := 0, query_ref := true })],
            current_generation := 2, binlog := [], next_logevent_id := 1,
            use_message_db := false, is_bot := false, is_online := true,
            close_flag := false } 3 50 ["y"] 0 12).2) ∧
    (do_set_poll_answer
        { polls := [],
          pending_answers := [(3, { options := ["x"], promises := [11], generation := 2, logevent_id := 0, query_ref := true })],
          current_generation := 2, binlog := [], next_logevent_id := 1,
          use_message_db := false, is_bot := false, is_online := true,
          close_flag := false } 3 50 ["y"] 0 12).1.pending_answers.countP
      (fun e => e.1 == 3) = 1 := by
  have h := claim_C2
    { polls := [],
      pending_answers := [(3, { options := ["x"], promises := [11], generation := 2, logevent_id := 0, query_ref := true })],
      current_generation := 2, binlog := [], next_logevent_id := 1,
      use_message_db := false, is_bot := false, is_online := true,
      close_flag := false } 3 50 ["y"] 12
    { options := ["x"], promises := [11], generation := 2, logevent_id := 0, query_ref := true }
    (by decide) (by decide) (by decide) (by decide) (by decide)
  exact ⟨by decide, h.1, h.2.2.1⟩

/-- An out-of-range index makes the translation loop fail. -/
theorem optionsOf_none {poll : Poll} :
    ∀ {ids : List Int}, (∃ id ∈ ids, poll.options.length ≤ castIndex id) →
      optionsOf poll ids = none := by
  intro ids
  induction ids with
  | nil =>
    rintro ⟨id, h, _⟩
    simp at h
  | cons a rest ih =>
    rintro ⟨id, hmem, hge⟩
    unfold optionsOf
    by_cases h : castIndex a < poll.options.length
    · rw [dif_pos h]
      rcases List.mem_cons.mp hmem with rfl | hmem2
      · omega
      · rw [ih ⟨id, hmem2, hge⟩]
        rfl
    · rw [dif_neg h]

/-- Claim C4: whenever more than one option index is given, or the poll id
is local, or the poll is closed, or an index is out of range,
set_poll_answer leaves the state unchanged and produces exactly one
effect, a synchronous error resolution of the caller promise — in
particular no network send and no log write. -/
theorem claim_C4 (s : PMState) (poll_id fmi : Int) (option_ids : List Int) (promise : Nat)
    (h : rejectsVote s poll_id option_ids = true) :
    (set_poll_answer s poll_id fmi option_ids promise).1 = s ∧
    ∃ c m, (set_poll_answer s poll_id fmi option_ids promise).2 =
      [Effect.resolved promise (Outcome.error c m)] := by
  unfold set_poll_answer
  by_cases h1 : option_ids.length > 1
  · rw [if_pos h1]
    exact ⟨rfl, 400, _, rfl⟩
  · rw [if_neg h1]
    by_cases h2 : is_local_poll_id poll_id = true
    · rw [if_pos h2]
      exact ⟨rfl, 5, _, rfl⟩
    · rw [if_neg h2]
      unfold rejectsVote at h
      simp only [Bool.or_eq_true, decide_eq_true_eq] at h
      rcases h with (h | h) | h
      · exact absurd h h1
      · exact absurd h h2
      · cases hl : alookup s.polls poll_id with
        | none =>
          rw [hl] at h
          simp at h
        | some poll =>
          rw [hl] at h
          simp only [hl]
          simp only [Bool.or_eq_true] at h
          by_cases hcl : poll.is_closed = true
          · rw [if_pos hcl]
            exact ⟨rfl, 400, _, rfl⟩
          · rw [if_neg hcl]
            rcases h with h | hbad
            · exact absurd h hcl
            · have hnone : optionsOf poll option_ids = none := by
                refine optionsOf_none ?_
                obtain ⟨id, hid, hge⟩ := List.any_eq_true.mp hbad
                exact ⟨id, hid, by simpa using hge⟩
              simp only [hnone]
              exact ⟨by trivial, 400, _, rfl⟩

/-- Witness for C4: voting on a closed poll is rejected synchronously. -/
theorem claim_C4_witness :
    rejectsVote
      { polls := [(7, { question := "q", options := [{ text := "A", data := "a", voter_count := 1, is_chosen := false }], total_voter_count := 1, is_closed := true })],
        pending_answers := [], current_generation := 0, binlog := [],
        next_logevent_id := 1, use_message_db := true, is_bot := false,
        is_online := true, close_flag := false } 7 [0] = true ∧
    ((set_poll_answer
        { polls := [(7, { question := "q", options := [{ text := "A", data := "a", voter_count := 1, is_chosen := false }], total_voter_count := 1, is_closed := true })],
          pending_answers := [], current_generation := 0, binlog := [],
          next_logevent_id := 1, use_message_db := true, is_bot := false,
          is_online := true, close_flag := false } 7 99 [0] 44).1 =
      { polls := [(7, { question := "q", options := [{ text := "A", data := "a", voter_count := 1, is_chosen := false }], total_voter_count := 1, is_closed := true })],
        pending_answers := [], current_generation := 0, binlog := [],
        next_logevent_id := 1, use_message_db := true, is_bot := false,
        is_online := true, close_flag := false } ∧
      ∃ c m,
        (set_poll_answer
          { polls := [(7, { question := "q", options := [{ text := "A", data := "a", voter_count := 1, is_chosen := false }], total_voter_count := 1, is_closed := true })],
            pending_answers := [], current_generation := 0, binlog := [],
            next_logevent_id := 1, use_message_db := true, is_bot := false,
            is_online := true, close_flag := false } 7 99 [0] 44).2 =
          [Effect.resolved 44 (Outcome.error c m)]) :=
  ⟨by decide, claim_C4 _ 7 99 [0] 44 (by decide)⟩

/-- Reduction of do_set_poll_answer when no pending record exists. -/
theorem do_set_poll_answer_fresh (s : PMState) (pid fmi : Int) (options : List String)
    (le promise : Nat)
    (hpa : alookup s.pending_answers pid = none) :
    do_set_poll_answer s pid fmi options le promise =
      ({ (dspaBinlog s emptyPendingAnswer pid fmi options le).2 with
          current_generation :=
            (dspaBinlog s emptyPendingAnswer pid fmi options le).2.current_generation + 1,
          pending_answers :=
            aset (dspaBinlog s emptyPendingAnswer pid fmi options le).2.pending_answers pid
              { options := options, promises := [promise],
                generation :=
                  (dspaBinlog s emptyPendingAnswer pid fmi options le).2.current_generation + 1,
                logevent_id := (dspaBinlog s emptyPendingAnswer pid fmi options le).1,
                query_ref := true } },
        [Effect.notified pid,
          Effect.sentVote pid fmi options
            ((dspaBinlog s emptyPendingAnswer pid fmi options le).2.current_generation + 1)]) := by
  simp only [do_set_poll_answer, hpa, Option.getD_none]
  rw [if_neg (by simp [emptyPendingAnswer])]
  simp [emptyPendingAnswer]

/-- Claim C10: an empty selection on an open, non-local, server poll with
no submission in flight is accepted — no validation error is returned to
the promise — and a vote request carrying zero option identifiers is
dispatched with a fresh generation. -/
theorem claim_C10 (s : PMState) (poll_id fmi : Int) (promise : Nat) (poll : Poll)
    (hpoll : alookup s.polls poll_id = some poll)
    (hopen : poll.is_closed = false)
    (hlocal : is_local_poll_id poll_id = false)
    (hnp : alookup s.pending_answers poll_id = none) :
    Effect.sentVote poll_id fmi [] (s.current_generation + 1) ∈
      (set_poll_answer s poll_id fmi [] promise).2 ∧
    ∀ o, Effect.resolved promise o ∉ (set_poll_answer s poll_id fmi [] promise).2 := by
  unfold set_poll_answer
  rw [if_neg (by simp), if_neg (by simp [hlocal])]
  simp only [hpoll]
  rw [if_neg (by simp [hopen])]
  simp only [optionsOf]
  rw [do_set_poll_answer_fresh s poll_id fmi [] 0 promise hnp]
  rw [dspaBinlog_gen]
  constructor
  · simp
  · intro o
    simp

/-- Witness for C10 on a concrete open poll with no in-flight vote. -/
theorem claim_C10_witness :
    alookup
      ({ polls := [(7, { question := "q", options := [{ text := "A", data := "a", voter_count := 0, is_chosen := false }], total_voter_count := 0, is_closed := false })],
         pending_answers := [], current_generation := 0, binlog := [],
         next_logevent_id := 1, use_message_db := true, is_bot := false,
         is_online := true, close_flag := false } : PMState).polls 7 =
      some { question := "q", options := [{ text := "A", data := "a", voter_count := 0, is_chosen := false }], total_voter_count := 0, is_closed := false } ∧
    (Effect.sentVote 7 9 [] 1 ∈
      (set_poll_answer
        { polls := [(7, { question := "q", options := [{ text := "A", data := "a", voter_count := 0, is_chosen := false }], total_voter_count := 0, is_closed := false })],
          pending_answers := [], current_generation := 0, binlog := [],
          next_logevent_id := 1, use_message_db := true, is_bot := false,
          is_online := true, close_flag := false } 7 9 [] 21).2 ∧
    ∀ o, Effect.resolved 21 o ∉
      (set_poll_answer
        { polls := [(7, { question := "q", options := [{ text := "A", data := "a", voter_count := 0, is_chosen := false }], total_voter_count := 0, is_closed := false })],
          pending_answers := [], current_generation := 0, binlog := [],
          next_logevent_id := 1, use_message_db := true, is_bot := false,
          is_online := true, close_flag := false } 7 9 [] 21).2) :=
  ⟨by decide,
    claim_C10 _ 7 9 21
      { question := "q", options := [{ text := "A", data := "a", voter_count := 0, is_chosen := false }], total_voter_count := 0, is_closed := false }
      (by decide) (by decide) (by decide) (by decide)⟩

/-- Claim C8 fails on the code: starting from a state satisfying the
per-option invariant (option voter count at most the poll total), a merge
of server results reporting total 3 while repeating the stored per-option
count 5 leaves voter_count 5 above total 3 — the per-option clamp block is
skipped entirely when the reported count equals the stored one, so the
defensive clamps do not guarantee the invariant after every merge. -/
theorem claim_C8_failure :
    (([(10, { question := "q", options := [{ text := "A", data := "a", voter_count := 5, is_chosen := false }], total_voter_count := 5, is_closed := false })] : List (Int × Poll)).all
        (fun e => e.2.options.all (fun o => decide (o.voter_count ≤ e.2.total_voter_count))) = true) ∧
    ((on_get_poll
        { polls := [(10, { question := "q", options := [{ text := "A", data := "a", voter_count := 5, is_chosen := false }], total_voter_count := 5, is_closed := false })],
          pending_answers := [], current_generation := 0, binlog := [],
          next_logevent_id := 1, use_message_db := false, is_bot := false,
          is_online := true, close_flag := false }
        10 none
        { is_min := true, total_voters := some 3,
          results := [{ option := "a", voters := 5, chosen := false }] }
        80).1.polls.all
        (fun e => e.2.options.all (fun o => decide (o.voter_count ≤ e.2.total_voter_count))) = false) :=
  ⟨by decide, by decide⟩

end PollCore
